import Mathlib

/-!
Verification development for the assert-lib runtime assertion library.

The Go sources are embedded shallowly: handler state is an explicit
structure, every evaluation call is a pure function from handler state,
context and arguments to an Except value carrying the new state and an
ordered trace of observable effects (lock operations, writes to the
output sink, structured-log emissions, termination-action invocations).
A Go panic (from a failed interface type assertion or from the
panic-on-failure termination action) is modelled as the error branch of
Except.  The nondeterministic content of runtime/debug.Stack is passed
in as an explicit capturedStack argument; map iteration order for the
text formatter is fixed to insertion order, and JSON/YAML marshalling
sorts keys as the Go encoders do.
-/

namespace AssertLib

/-- GoVal models a Go interface value as it appears in the variadic
argument lists of the assertion calls. -/
inductive GoVal where
  | vString (s : String)
  | vInt (n : Int)
  | vBool (b : Bool)
  | vNil
  deriving DecidableEq

/-- Ctx models context.Context as far as the library consults it: err is
the result of ctx.Err(), none when the context is not cancelled. -/
structure Ctx where
  err : Option String
  deriving DecidableEq

/-- Writer identifies the io.Writer output sink configured on a handler
(os.Stderr, io.Discard, or a test buffer). -/
inductive Writer where
  | stderr
  | discard
  | buffer (id : Nat)
  deriving DecidableEq

/-- ExitFunc models the termination action stored in the handler:
os.Exit, the no-op closure installed on the default handler, the
panic-raising closure from WithPanicOnFailure, or a user-supplied
non-raising callback (as in the tests). -/
inductive ExitFunc where
  | osExit
  | noOp
  | panicOnFailure
  | custom (id : Nat)
  deriving DecidableEq

/-- Event is one observable effect of an evaluation call, in program
order: mutex operations, a write of a string to a sink, a flush-hook
invocation, a structured-log emission, or an invocation of the
configured termination action. -/
inductive Event where
  | lockAcquire
  | lockRelease
  | write (w : Writer) (s : String)
  | flushHook (id : Nat)
  | logInfo (s : String)
  | logError (s : String)
  | exitCall (f : ExitFunc) (code : Nat)
  deriving DecidableEq

/-- GoVal.toDisplay renders a value the way fmt's percent-v verb does for
the modelled value kinds. -/
def GoVal.toDisplay : GoVal → String
  | .vString s => s
  | .vInt n => toString n
  | .vBool b => if b then "true" else "false"
  | .vNil => "<nil>"

/-- GoVal.isStringVal tests whether the interface value holds a string,
mirroring the args[i].(string) type assertion in runAssert. -/
def GoVal.isStringVal : GoVal → Bool
  | .vString _ => true
  | _ => false

/-- goReprArgs renders the raw variadic argument slice as the ARGS
diagnostic line does with fmt's percent-plus-v verb. -/
def goReprArgs (args : List GoVal) : String :=
  "[" ++ String.intercalate " " (args.map GoVal.toDisplay) ++ "]"

/-- mapSet models assignment into a Go map represented as an association
list: overwrite an existing key in place, otherwise append. -/
def mapSet : List (String × GoVal) → String → GoVal → List (String × GoVal)
  | [], k, v => [(k, v)]
  | (k0, v0) :: rest, k, v =>
      if k0 = k then (k, v) :: rest else (k0, v0) :: mapSet rest k v

/-- charListLt is lexicographic order on character lists, the order Go
uses on the (ASCII) map keys its encoders sort. -/
def charListLt : List Char → List Char → Bool
  | [], [] => false
  | [], _ :: _ => true
  | _ :: _, [] => false
  | a :: as, b :: bs =>
      if Nat.blt a.toNat b.toNat then true
      else if Nat.blt b.toNat a.toNat then false
      else charListLt as bs

/-- strLt is lexicographic order on strings. -/
def strLt (a b : String) : Bool :=
  charListLt a.data b.data

/-- insertField inserts one key/value pair into a key-sorted association
list, used to model the key sorting Go's encoders apply to maps. -/
def insertField {α : Type} (kv : String × α) : List (String × α) → List (String × α)
  | [] => [kv]
  | x :: xs => if strLt kv.1 x.1 then kv :: x :: xs else x :: insertField kv xs

/-- sortFields sorts an association list by key via insertion sort,
matching the key ordering of Go's JSON and YAML map marshalling. -/
def sortFields {α : Type} (l : List (String × α)) : List (String × α) :=
  l.foldr insertField []

/-- Json is the value shape produced by the JSON formatter before
serialization. -/
inductive Json where
  | str (s : String)
  | num (n : Int)
  | bool (b : Bool)
  | null
  | obj (fields : List (String × Json))

/-- GoVal.toJson converts an interface value to its JSON value, as
encoding/json marshals the modelled value kinds. -/
def GoVal.toJson : GoVal → Json
  | .vString s => .str s
  | .vInt n => .num n
  | .vBool b => .bool b
  | .vNil => .null

/-- escapeJsonChar escapes one character for a JSON string literal. -/
def escapeJsonChar (c : Char) : String :=
  if c = '\x22' then "\\\x22"
  else if c = '\\' then "\\\\"
  else if c = '\n' then "\\n"
  else if c = '\t' then "\\t"
  else if c = '\r' then "\\r"
  else String.singleton c

/-- quoteJson renders a JSON string literal with surrounding quotes. -/
def quoteJson (s : String) : String :=
  "\x22" ++ String.join (s.data.map escapeJsonChar) ++ "\x22"

mutual

/-- renderJsonVal serializes a Json value with the two-space indentation
of json.MarshalIndent(data, empty prefix, two spaces); ind is the
current line prefix. -/
def renderJsonVal (ind : String) : Json → String
  | .str s => quoteJson s
  | .num n => toString n
  | .bool b => if b then "true" else "false"
  | .null => "null"
  | .obj [] => "\x7b\x7d"
  | .obj (f :: fs) =>
      "\x7b\n" ++ renderJsonFields (ind ++ "  ") (f :: fs) ++ "\n" ++ ind ++ "\x7d"

/-- renderJsonFields serializes the field list of a JSON object, one
field per line, comma separated. -/
def renderJsonFields (ind : String) : List (String × Json) → String
  | [] => ""
  | [(k, v)] => ind ++ quoteJson k ++ ": " ++ renderJsonVal ind v
  | (k, v) :: x :: rest =>
      ind ++ quoteJson k ++ ": " ++ renderJsonVal ind v ++ ",\n" ++
        renderJsonFields ind (x :: rest)

end

/-- Json.getField looks a key up in a JSON object. -/
def Json.getField : Json → String → Option Json
  | .obj fs, k => (fs.find? (fun kv => kv.1 == k)).map (fun kv => kv.2)
  | _, _ => none

/-- Json.hasKey tests whether a JSON object carries a key. -/
def Json.hasKey : Json → String → Bool
  | .obj fs, k => fs.any (fun kv => kv.1 == k)
  | _, _ => false

/-- TextFormatter.Format is the plain text formatter from formatter.go:
an ASSERT header line, one indented key=value line per record entry
(the Go map iteration order is fixed here to insertion order), then the
stack text if non-empty. -/
def TextFormatter.Format (assertData : List (String × GoVal)) (stack : String) : String :=
  "ASSERT\n" ++
    String.join (assertData.map fun kv => "   " ++ kv.1 ++ "=" ++ kv.2.toDisplay ++ "\n") ++
    (if stack = "" then "" else stack ++ "\n")

/-- JSONFormatter.marshalVal is the value handed to json.MarshalIndent:
the record wrapped under the assertData key, plus a stack key only when
the stack text is non-empty; object keys are sorted as the marshaller
sorts Go map keys. -/
def JSONFormatter.marshalVal (assertData : List (String × GoVal)) (stack : String) : Json :=
  Json.obj (sortFields
    (("assertData", Json.obj (sortFields (assertData.map fun kv => (kv.1, kv.2.toJson)))) ::
      (if stack = "" then [] else [("stack", Json.str stack)])))

/-- JSONFormatter.Format is the JSON formatter from formatter.go. -/
def JSONFormatter.Format (assertData : List (String × GoVal)) (stack : String) : String :=
  renderJsonVal "" (JSONFormatter.marshalVal assertData stack)

/-- YAMLFormatter.Format is the YAML formatter from formatter.go,
modelled to the same logical shape: the record under assertData and a
stack key only when non-empty, keys sorted as yaml.Marshal sorts maps. -/
def YAMLFormatter.Format (assertData : List (String × GoVal)) (stack : String) : String :=
  "assertData:\n" ++
    String.join ((sortFields assertData).map fun kv =>
      "  " ++ kv.1 ++ ": " ++ kv.2.toDisplay ++ "\n") ++
    (if stack = "" then "" else "stack: " ++ stack ++ "\n")

/-- Formatter identifies which of the three formatter implementations a
handler carries. -/
inductive Formatter where
  | text
  | json
  | yaml
  deriving DecidableEq

/-- Formatter.Format dispatches to the formatter implementation, the
interface call site in runAssert. -/
def Formatter.Format : Formatter → List (String × GoVal) → String → String
  | .text, d, s => TextFormatter.Format d s
  | .json, d, s => JSONFormatter.Format d s
  | .yaml, d, s => YAMLFormatter.Format d s

/-- skipWs drops leading JSON whitespace. -/
def skipWs : List Char → List Char
  | [] => []
  | c :: rest =>
      if c = ' ' || c = '\n' || c = '\t' || c = '\r' then skipWs rest else c :: rest

/-- parseStringChars reads the remainder of a JSON string literal after
its opening quote, handling the escapes the renderer can produce. -/
def parseStringChars : List Char → Option (String × List Char)
  | [] => none
  | c :: rest =>
      if c = '\x22' then some ("", rest)
      else if c = '\\' then
        match rest with
        | [] => none
        | e :: rest2 =>
            let dec : Option Char :=
              if e = 'n' then some '\n'
              else if e = 't' then some '\t'
              else if e = 'r' then some '\r'
              else if e = '\x22' then some '\x22'
              else if e = '\\' then some '\\'
              else none
            match dec with
            | none => none
            | some ch =>
                match parseStringChars rest2 with
                | some (s, r) => some (String.singleton ch ++ s, r)
                | none => none
      else
        match parseStringChars rest with
        | some (s, r) => some (String.singleton c ++ s, r)
        | none => none

/-- parseDigits accumulates a decimal natural number. -/
def parseDigits (acc : Nat) : List Char → Nat × List Char
  | [] => (acc, [])
  | c :: rest =>
      if c.isDigit then parseDigits (acc * 10 + (c.toNat - 48)) rest
      else (acc, c :: rest)

mutual

/-- parseJsonVal parses one JSON value, with fuel bounding the nesting
depth. -/
def parseJsonVal : Nat → List Char → Option (Json × List Char)
  | 0, _ => none
  | Nat.succ fuel, input =>
      match skipWs input with
      | [] => none
      | c :: rest =>
          if c = '\x7b' then
            match skipWs rest with
            | '\x7d' :: r2 => some (.obj [], r2)
            | r2 =>
                match parseFields fuel r2 with
                | some (fs, r3) => some (.obj fs, r3)
                | none => none
          else if c = '\x22' then
            match parseStringChars rest with
            | some (s, r) => some (.str s, r)
            | none => none
          else if c = 't' then
            match rest with
            | 'r' :: 'u' :: 'e' :: r => some (.bool true, r)
            | _ => none
          else if c = 'f' then
            match rest with
            | 'a' :: 'l' :: 's' :: 'e' :: r => some (.bool false, r)
            | _ => none
          else if c = 'n' then
            match rest with
            | 'u' :: 'l' :: 'l' :: r => some (.null, r)
            | _ => none
          else if c = '-' then
            match rest with
            | d :: r =>
                if d.isDigit then
                  let (n, r2) := parseDigits (d.toNat - 48) r
                  some (.num (-(n : Int)), r2)
                else none
            | [] => none
          else if c.isDigit then
            let (n, r2) := parseDigits (c.toNat - 48) rest
            some (.num (n : Int), r2)
          else none

/-- parseFields parses the fields of a JSON object after its opening
brace, up to and including the closing brace. -/
def parseFields : Nat → List Char → Option (List (String × Json) × List Char)
  | 0, _ => none
  | Nat.succ fuel, input =>
      match skipWs input with
      | '\x22' :: rest =>
          match parseStringChars rest with
          | some (k, r1) =>
              match skipWs r1 with
              | ':' :: r2 =>
                  match parseJsonVal fuel r2 with
                  | some (v, r3) =>
                      match skipWs r3 with
                      | ',' :: r4 =>
                          match parseFields fuel r4 with
                          | some (fs, r5) => some ((k, v) :: fs, r5)
                          | none => none
                      | '\x7d' :: r4 => some ([(k, v)], r4)
                      | _ => none
                  | none => none
              | _ => none
          | none => none
      | _ => none

end

/-- parseJson parses a complete JSON document, requiring only trailing
whitespace after the value. -/
def parseJson (s : String) : Option Json :=
  match parseJsonVal 64 s.data with
  | some (j, rest) => if skipWs rest = [] then some j else none
  | none => none

/-- AssertHandler is the handler state from assert.go: flush hooks
(identified by registration ids), the contextual-data registry (each
entry keyed by its registry key and carrying the string its Dump method
returns), the output sink, termination action, formatter, deferred
queue, and the three mode flags.  The sync.Mutex has no state to carry
here; its acquire and release show up as trace events. -/
structure AssertHandler where
  flushes : List Nat
  assertData : List (String × String)
  writer : Writer
  exitFunc : ExitFunc
  formatter : Formatter
  deferredErrors : List String
  deferAssertions : Bool
  debugMode : Bool
  verboseMode : Bool
  deriving DecidableEq

/-- NewAssertHandler is the constructor from assert.go with its
documented defaults: stderr output, os.Exit termination, text
formatter, empty registry, hooks and queue, all modes off. -/
def NewAssertHandler : AssertHandler :=
  { flushes := [], assertData := [], writer := .stderr, exitFunc := .osExit,
    formatter := .text, deferredErrors := [], deferAssertions := false,
    debugMode := false, verboseMode := false }

/-- getDefaultHandler is the lazily-initialized process-wide default
handler: NewAssertHandler with a no-op termination action and stderr
output installed by the initOnce body. -/
def getDefaultHandler : AssertHandler :=
  { NewAssertHandler with exitFunc := .noOp, writer := .stderr }

/-- ExitFunc.invoke models calling the configured termination action
with a status code: the panic-on-failure action raises (error branch),
every other action produces an exitCall event. -/
def ExitFunc.invoke : ExitFunc → Nat → Except String Event
  | .panicOnFailure, code =>
      .error ("assertion failed with exit code " ++ toString code)
  | f, code => .ok (.exitCall f code)

/-- addPairs is the pairwise argument loop of runAssert: arguments are
consumed two at a time, a trailing unpaired argument is dropped by the
break before the type assertion, and a non-string key position raises
the interface-conversion panic of args[i].(string). -/
def addPairs : List GoVal → List (String × GoVal) → Except String (List (String × GoVal))
  | [], d => .ok d
  | [_], d => .ok d
  | k :: v :: rest, d =>
      match k with
      | .vString s => addPairs rest (mapSet d s v)
      | _ => .error "interface conversion: interface is not string"

/-- keysAreStrings holds when every argument the pair loop will use as a
key is a string, so the interface type assertion cannot panic. -/
def keysAreStrings : List GoVal → Bool
  | [] => true
  | [_] => true
  | k :: _ :: rest => k.isStringVal && keysAreStrings rest

/-- AssertHandler.buildRecord assembles the failure record of runAssert:
the msg and area entries, then the variadic key/value arguments, then
the dumped contextual-data registry entries. -/
def AssertHandler.buildRecord (a : AssertHandler) (msg : String) (args : List GoVal) :
    Except String (List (String × GoVal)) :=
  match addPairs args (mapSet (mapSet [] "msg" (.vString msg)) "area" (.vString "Assert")) with
  | .error p => .error p
  | .ok d => .ok (a.assertData.foldl (fun acc kv => mapSet acc kv.1 (.vString kv.2)) d)

/-- AssertHandler.runAssert is the failure pipeline of assert.go: take
the lock; if the context is already cancelled write a cancellation
notice and return; otherwise run the flush hooks, build the record
(possibly panicking on a non-string key), print the raw arguments in
verbose mode, capture a stack trace only in debug or verbose mode
(capturedStack stands for the environment-supplied debug.Stack text),
format and write the report, then either append it to the deferred
queue or invoke the termination action with status code 1. -/
def AssertHandler.runAssert (a : AssertHandler) (ctx : Ctx) (capturedStack : String)
    (msg : String) (args : List GoVal) : Except String (AssertHandler × List Event) :=
  match ctx.err with
  | some e =>
      .ok (a, [.lockAcquire, .write a.writer ("Context canceled: " ++ e ++ "\n"),
               .lockRelease])
  | none =>
      match a.buildRecord msg args with
      | .error p => .error p
      | .ok record =>
          let flushEvs := a.flushes.map Event.flushHook
          let argsEvs : List Event :=
            if a.verboseMode then [.write a.writer ("ARGS: " ++ goReprArgs args ++ "\n")]
            else []
          let stack := if a.debugMode || a.verboseMode then capturedStack else ""
          let formatted := a.formatter.Format record stack
          let before :=
            Event.lockAcquire :: (flushEvs ++ argsEvs ++
              [.write a.writer "ASSERT\n", .write a.writer (formatted ++ "\n")])
          if a.deferAssertions then
            .ok ({ a with deferredErrors := a.deferredErrors ++ [formatted] },
                 before ++ [.lockRelease])
          else
            match a.exitFunc.invoke 1 with
            | .error p => .error p
            | .ok ev => .ok (a, before ++ [ev, .lockRelease])

/-- AssertHandler.ProcessDeferredAssertions drains the deferred queue as
assert.go does: when non-empty, join the entries with the fixed
separator, write the combined report, clear the queue and invoke the
termination action with status code 1; when empty do nothing.  The
function takes the context argument of the Go signature but, like the
source, never consults it, and it touches no lock. -/
def AssertHandler.ProcessDeferredAssertions (a : AssertHandler) (ctx : Ctx) :
    Except String (AssertHandler × List Event) :=
  if a.deferredErrors.length > 0 then
    match a.exitFunc.invoke 1 with
    | .error p => .error p
    | .ok ev =>
        .ok ({ a with deferredErrors := [] },
             [.write a.writer (String.intercalate "\n---\n" a.deferredErrors ++ "\n"), ev])
  else .ok (a, [])

/-- prependEvents prefixes already-emitted effects (such as the slog
calls made before entering the pipeline) onto a call result. -/
def prependEvents {α : Type} (evs : List Event) :
    Except String (α × List Event) → Except String (α × List Event)
  | .ok (a, t) => .ok (a, evs ++ t)
  | .error p => .error p

/-- AssertHandler.Assert fails exactly when the condition is false. -/
def AssertHandler.Assert (a : AssertHandler) (ctx : Ctx) (capturedStack : String)
    (truth : Bool) (msg : String) (args : List GoVal) :
    Except String (AssertHandler × List Event) :=
  if truth then .ok (a, []) else a.runAssert ctx capturedStack msg args

/-- AssertHandler.Nil logs an error and runs the failure pipeline when
the item is not nil, and does nothing when it is nil. -/
def AssertHandler.Nil (a : AssertHandler) (ctx : Ctx) (capturedStack : String)
    (item : GoVal) (msg : String) (args : List GoVal) :
    Except String (AssertHandler × List Event) :=
  if item ≠ .vNil then
    prependEvents [.logError "Nil#not nil encountered"]
      (a.runAssert ctx capturedStack msg args)
  else .ok (a, [])

/-- AssertHandler.NotNil logs an error and runs the failure pipeline
when the item is nil, and does nothing when it is not nil. -/
def AssertHandler.NotNil (a : AssertHandler) (ctx : Ctx) (capturedStack : String)
    (item : GoVal) (msg : String) (args : List GoVal) :
    Except String (AssertHandler × List Event) :=
  if item = .vNil then
    prependEvents [.logError "NotNil#nil encountered"]
      (a.runAssert ctx capturedStack msg args)
  else .ok (a, [])

/-- AssertHandler.Never always runs the failure pipeline. -/
def AssertHandler.Never (a : AssertHandler) (ctx : Ctx) (capturedStack : String)
    (msg : String) (args : List GoVal) : Except String (AssertHandler × List Event) :=
  a.runAssert ctx capturedStack msg args

/-- AssertHandler.NoError runs the failure pipeline when the error is
non-nil, first appending the error key/value pair to the data. -/
def AssertHandler.NoError (a : AssertHandler) (ctx : Ctx) (capturedStack : String)
    (err : GoVal) (msg : String) (args : List GoVal) :
    Except String (AssertHandler × List Event) :=
  if err ≠ .vNil then
    a.runAssert ctx capturedStack msg (args ++ [.vString "error", err])
  else .ok (a, [])

/-- AssertConfig is the temporary configuration snapshot the façade
folds its option modifiers over. -/
structure AssertConfig where
  formatter : Formatter
  writer : Writer
  exitFunc : ExitFunc
  deferMode : Bool
  debugMode : Bool
  verboseMode : Bool

/-- AssertOption is the option type: a mutation of the configuration
snapshot. -/
def AssertOption : Type := AssertConfig → AssertConfig

/-- WithFormatter sets the formatter. -/
def WithFormatter (f : Formatter) : AssertOption := fun c => { c with formatter := f }

/-- WithWriter sets the output sink. -/
def WithWriter (w : Writer) : AssertOption := fun c => { c with writer := w }

/-- WithExitFunc sets the termination action. -/
def WithExitFunc (f : ExitFunc) : AssertOption := fun c => { c with exitFunc := f }

/-- WithDeferMode sets deferred-assertion mode. -/
def WithDeferMode (d : Bool) : AssertOption := fun c => { c with deferMode := d }

/-- WithDebugMode turns debug mode on. -/
def WithDebugMode : AssertOption := fun c => { c with debugMode := true }

/-- WithVerboseMode turns verbose mode on. -/
def WithVerboseMode : AssertOption := fun c => { c with verboseMode := true }

/-- WithQuietMode clears both debug and verbose mode. -/
def WithQuietMode : AssertOption := fun c => { c with debugMode := false, verboseMode := false }

/-- WithCrashOnFailure installs os.Exit as the termination action. -/
def WithCrashOnFailure : AssertOption := fun c => { c with exitFunc := .osExit }

/-- WithPanicOnFailure installs the panic-raising termination action. -/
def WithPanicOnFailure : AssertOption := fun c => { c with exitFunc := .panicOnFailure }

/-- WithSilentMode points the output sink at io.Discard. -/
def WithSilentMode : AssertOption := fun c => { c with writer := .discard }

/-- WithLogLevel is a declared no-op in the source (its body is a TODO). -/
def WithLogLevel (level : String) : AssertOption := fun c => c

/-- WithTestingDefaults installs a no-op termination action, the text
formatter and debug mode. -/
def WithTestingDefaults : AssertOption :=
  fun c => { c with exitFunc := .noOp, formatter := .text, debugMode := true }

/-- WithProductionDefaults installs a no-op termination action, the JSON
formatter, and clears debug and verbose mode. -/
def WithProductionDefaults : AssertOption :=
  fun c => { c with exitFunc := .noOp, formatter := .json,
                    debugMode := false, verboseMode := false }

/-- AssertHandler.configOf snapshots the handler fields that seed the
temporary configuration in applyOptions. -/
def AssertHandler.configOf (a : AssertHandler) : AssertConfig :=
  { formatter := a.formatter, writer := a.writer, exitFunc := a.exitFunc,
    deferMode := a.deferAssertions, debugMode := a.debugMode,
    verboseMode := a.verboseMode }

/-- applyOptions mirrors assert.go: with no options it returns the
default handler itself; otherwise it folds the options in call order
over a snapshot of the default handler's configuration and builds a
transient handler that shares the default handler's flush-hook list and
contextual-data registry but starts with an empty deferred queue. -/
def applyOptions (handler : AssertHandler) (opts : List AssertOption) : AssertHandler :=
  if opts.isEmpty then handler
  else
    let config := opts.foldl (fun c opt => opt c) handler.configOf
    { flushes := handler.flushes, assertData := handler.assertData,
      writer := config.writer, exitFunc := config.exitFunc,
      formatter := config.formatter, deferredErrors := [],
      deferAssertions := config.deferMode, debugMode := config.debugMode,
      verboseMode := config.verboseMode }

/-- facadeRun threads the process-wide default handler state through a
package-level call: the call runs on the handler applyOptions resolves;
with no options that handler is the default handler itself, so its
state updates persist, while a transient handler's updates are
discarded with it. -/
def facadeRun (dflt : AssertHandler) (opts : List AssertOption)
    (call : AssertHandler → Except String (AssertHandler × List Event)) :
    Except String (AssertHandler × List Event) :=
  match call (applyOptions dflt opts) with
  | .error p => .error p
  | .ok (h, evs) => .ok (if opts.isEmpty then h else dflt, evs)

namespace Facade

/-- Assert is the package-level Assert. -/
def Assert (dflt : AssertHandler) (opts : List AssertOption) (ctx : Ctx)
    (capturedStack : String) (truth : Bool) (msg : String) :
    Except String (AssertHandler × List Event) :=
  facadeRun dflt opts (fun h => h.Assert ctx capturedStack truth msg [])

/-- Nil is the package-level Nil. -/
def Nil (dflt : AssertHandler) (opts : List AssertOption) (ctx : Ctx)
    (capturedStack : String) (item : GoVal) (msg : String) :
    Except String (AssertHandler × List Event) :=
  facadeRun dflt opts (fun h => h.Nil ctx capturedStack item msg [])

/-- NotNil is the package-level NotNil. -/
def NotNil (dflt : AssertHandler) (opts : List AssertOption) (ctx : Ctx)
    (capturedStack : String) (item : GoVal) (msg : String) :
    Except String (AssertHandler × List Event) :=
  facadeRun dflt opts (fun h => h.NotNil ctx capturedStack item msg [])

/-- Never is the package-level Never. -/
def Never (dflt : AssertHandler) (opts : List AssertOption) (ctx : Ctx)
    (capturedStack : String) (msg : String) :
    Except String (AssertHandler × List Event) :=
  facadeRun dflt opts (fun h => h.Never ctx capturedStack msg [])

/-- NoError is the package-level NoError. -/
def NoError (dflt : AssertHandler) (opts : List AssertOption) (ctx : Ctx)
    (capturedStack : String) (err : GoVal) (msg : String) :
    Except String (AssertHandler × List Event) :=
  facadeRun dflt opts (fun h => h.NoError ctx capturedStack err msg [])

/-- NotEmpty fails when the string is empty; a handler is constructed
only on the failing branch, as in the source. -/
def NotEmpty (dflt : AssertHandler) (opts : List AssertOption) (ctx : Ctx)
    (capturedStack : String) (str : String) (msg : String) :
    Except String (AssertHandler × List Event) :=
  if str = "" then
    facadeRun dflt opts (fun h =>
      h.Assert ctx capturedStack false msg [.vString "value", .vString str])
  else .ok (dflt, [])

/-- Equal fails when the two values differ. -/
def Equal (dflt : AssertHandler) (opts : List AssertOption) (ctx : Ctx)
    (capturedStack : String) (expected actual : GoVal) (msg : String) :
    Except String (AssertHandler × List Event) :=
  if expected = actual then .ok (dflt, [])
  else
    facadeRun dflt opts (fun h =>
      h.Assert ctx capturedStack false msg
        [.vString "expected", expected, .vString "actual", actual])

/-- NotEqual fails when the two values are equal. -/
def NotEqual (dflt : AssertHandler) (opts : List AssertOption) (ctx : Ctx)
    (capturedStack : String) (expected actual : GoVal) (msg : String) :
    Except String (AssertHandler × List Event) :=
  if expected ≠ actual then .ok (dflt, [])
  else
    facadeRun dflt opts (fun h =>
      h.Assert ctx capturedStack false msg
        [.vString "expected_not", expected, .vString "actual", actual])

/-- listIsInfix tests whether the needle occurs contiguously in the
haystack. -/
def listIsInfix (needle : List Char) : List Char → Bool
  | [] => needle.isEmpty
  | c :: rest => needle.isPrefixOf (c :: rest) || listIsInfix needle rest

/-- goStringContains is strings.Contains. -/
def goStringContains (s sub : String) : Bool :=
  listIsInfix sub.data s.data

/-- Contains fails when the string does not contain the substring. -/
def Contains (dflt : AssertHandler) (opts : List AssertOption) (ctx : Ctx)
    (capturedStack : String) (str substr : String) (msg : String) :
    Except String (AssertHandler × List Event) :=
  if goStringContains str substr then .ok (dflt, [])
  else
    facadeRun dflt opts (fun h =>
      h.Assert ctx capturedStack false msg
        [.vString "string", .vString str, .vString "substring", .vString substr])

/-- NotContains fails when the string does contain the substring. -/
def NotContains (dflt : AssertHandler) (opts : List AssertOption) (ctx : Ctx)
    (capturedStack : String) (str substr : String) (msg : String) :
    Except String (AssertHandler × List Event) :=
  if ¬ goStringContains str substr then .ok (dflt, [])
  else
    facadeRun dflt opts (fun h =>
      h.Assert ctx capturedStack false msg
        [.vString "string", .vString str, .vString "substring", .vString substr])

/-- TrueCond is the package-level True check (renamed here because True
names a proposition in Lean): fails when the value is false. -/
def TrueCond (dflt : AssertHandler) (opts : List AssertOption) (ctx : Ctx)
    (capturedStack : String) (value : Bool) (msg : String) :
    Except String (AssertHandler × List Event) :=
  if value then .ok (dflt, [])
  else
    facadeRun dflt opts (fun h =>
      h.Assert ctx capturedStack false msg [.vString "value", .vBool value])

/-- FalseCond is the package-level False check (renamed as TrueCond is):
fails when the value is true. -/
def FalseCond (dflt : AssertHandler) (opts : List AssertOption) (ctx : Ctx)
    (capturedStack : String) (value : Bool) (msg : String) :
    Except String (AssertHandler × List Event) :=
  if ¬ value then .ok (dflt, [])
  else
    facadeRun dflt opts (fun h =>
      h.Assert ctx capturedStack false msg [.vString "value", .vBool value])

/-- ProcessDeferredAssertions is the package-level drain. -/
def ProcessDeferredAssertions (dflt : AssertHandler) (opts : List AssertOption)
    (ctx : Ctx) : Except String (AssertHandler × List Event) :=
  facadeRun dflt opts (fun h => h.ProcessDeferredAssertions ctx)

end Facade

namespace Old

/-- AssertHandler is the earlier evolution of the handler (the variant
without the debug and verbose flags): it always prints the raw
arguments and always captures a stack trace. -/
structure AssertHandler where
  flushes : List Nat
  assertData : List (String × String)
  writer : Writer
  exitFunc : ExitFunc
  formatter : Formatter
  deferredErrors : List String
  deferAssertions : Bool
  deriving DecidableEq

/-- AssertHandler.buildRecord assembles the failure record exactly as
the current variant does. -/
def AssertHandler.buildRecord (a : AssertHandler) (msg : String) (args : List GoVal) :
    Except String (List (String × GoVal)) :=
  match addPairs args (mapSet (mapSet [] "msg" (.vString msg)) "area" (.vString "Assert")) with
  | .error p => .error p
  | .ok d => .ok (a.assertData.foldl (fun acc kv => mapSet acc kv.1 (.vString kv.2)) d)

/-- AssertHandler.runAssert is the failure pipeline of the earlier
variant: identical to the current one except that the ARGS line is
always printed and the stack trace is always captured. -/
def AssertHandler.runAssert (a : AssertHandler) (ctx : Ctx) (capturedStack : String)
    (msg : String) (args : List GoVal) : Except String (AssertHandler × List Event) :=
  match ctx.err with
  | some e =>
      .ok (a, [.lockAcquire, .write a.writer ("Context canceled: " ++ e ++ "\n"),
               .lockRelease])
  | none =>
      match a.buildRecord msg args with
      | .error p => .error p
      | .ok record =>
          let flushEvs := a.flushes.map Event.flushHook
          let argsEvs : List Event := [.write a.writer ("ARGS: " ++ goReprArgs args ++ "\n")]
          let formatted := a.formatter.Format record capturedStack
          let before :=
            Event.lockAcquire :: (flushEvs ++ argsEvs ++
              [.write a.writer "ASSERT\n", .write a.writer (formatted ++ "\n")])
          if a.deferAssertions then
            .ok ({ a with deferredErrors := a.deferredErrors ++ [formatted] },
                 before ++ [.lockRelease])
          else
            match a.exitFunc.invoke 1 with
            | .error p => .error p
            | .ok ev => .ok (a, before ++ [ev, .lockRelease])

/-- AssertHandler.Nil is the earlier Nil: it first emits an info-level
trace, then runs the failure pipeline when the item is nil, and
otherwise emits an error-level trace and runs the failure pipeline as
well. -/
def AssertHandler.Nil (a : AssertHandler) (ctx : Ctx) (capturedStack : String)
    (item : GoVal) (msg : String) (args : List GoVal) :
    Except String (AssertHandler × List Event) :=
  prependEvents [.logInfo "Nil Check"]
    (if item = .vNil then a.runAssert ctx capturedStack msg args
     else
       prependEvents [.logError "Nil#not nil encountered"]
         (a.runAssert ctx capturedStack msg args))

/-- deferredAfter projects the deferred queue out of a call result (the
empty queue when the call panicked). -/
def deferredAfter (r : Except String (AssertHandler × List Event)) : List String :=
  match r with
  | .ok (h, _) => h.deferredErrors
  | .error _ => []

/-- sampleHandler is a concrete earlier-variant handler in deferred mode
with a test buffer sink and a non-exiting termination action. -/
def sampleHandler : AssertHandler :=
  { flushes := [], assertData := [], writer := .buffer 0, exitFunc := .noOp,
    formatter := .text, deferredErrors := [], deferAssertions := true }

end Old

/-- evsOf projects the event trace out of a call result (the empty trace
when the call panicked). -/
def evsOf {α : Type} : Except String (α × List Event) → List Event
  | .ok (_, t) => t
  | .error _ => []

/-- cancelledCtx is a context whose Err method already reports
cancellation. -/
def cancelledCtx : Ctx := { err := some "context canceled" }

/-- freshCtx is a context that has not been cancelled. -/
def freshCtx : Ctx := { err := none }

/-- pdaHandler is a concrete handler with a non-empty deferred queue, a
test buffer sink and a non-exiting termination action. -/
def pdaHandler : AssertHandler :=
  { NewAssertHandler with writer := .buffer 0, exitFunc := .noOp,
                          deferredErrors := ["E1", "E2"] }

/-- deferHandler is a concrete handler in deferred mode whose queue
already holds one formatted entry. -/
def deferHandler : AssertHandler :=
  { NewAssertHandler with writer := .buffer 0, exitFunc := .noOp,
                          deferAssertions := true, deferredErrors := ["A"] }

/-- prependEvents_prepend composes two effect prefixes. -/
theorem prependEvents_prepend {α : Type} (e1 e2 : List Event)
    (x : Except String (α × List Event)) :
    prependEvents e1 (prependEvents e2 x) = prependEvents (e1 ++ e2) x := by
  cases x with
  | ok r => cases r; simp [prependEvents]
  | error p => simp [prependEvents]

/-- C1 counterexample: against an already-cancelled context, evaluating
a TRUE condition writes nothing at all — in particular no cancellation
notice reaches the output sink — refuting the claim that any condition
(true or false) produces a cancellation notice. -/
theorem c1_counterexample :
    cancelledCtx.err ≠ none ∧
    AssertHandler.Assert NewAssertHandler cancelledCtx "" true "boom" [] =
      Except.ok (NewAssertHandler, ([] : List Event)) :=
  ⟨by decide, rfl⟩

/-- C1 (amended): evaluating a FALSE condition against an
already-cancelled context writes exactly a cancellation notice to the
output sink and returns with the handler state unchanged — no failure
report, no deferred entry, no termination-action invocation — for every
handler configuration and hence regardless of defer mode; evaluating a
TRUE condition against a cancelled context writes nothing at all. -/
theorem c1_cancelled_context_short_circuit (a : AssertHandler) (stk msg e : String)
    (args : List GoVal) :
    a.runAssert { err := some e } stk msg args =
      Except.ok (a, [Event.lockAcquire,
        Event.write a.writer ("Context canceled: " ++ e ++ "\n"), Event.lockRelease]) ∧
    a.Assert { err := some e } stk false msg args =
      Except.ok (a, [Event.lockAcquire,
        Event.write a.writer ("Context canceled: " ++ e ++ "\n"), Event.lockRelease]) ∧
    a.Assert { err := some e } stk true msg args = Except.ok (a, []) := by
  refine ⟨rfl, ?_, rfl⟩
  simp [AssertHandler.Assert, AssertHandler.runAssert]

/-- C4: in the current handler, Nil runs the failure pipeline (preceded
by its error-level trace) exactly when the item is not the nil value,
and NotNil runs it exactly when the item is the nil value; in the
respective other case the call returns with no state change and no
effects. -/
theorem c4_nil_notnil_fail_conditions (a : AssertHandler) (ctx : Ctx) (stk : String)
    (item : GoVal) (msg : String) (args : List GoVal) :
    a.Nil ctx stk item msg args =
      (if item = GoVal.vNil then Except.ok (a, [])
       else prependEvents [Event.logError "Nil#not nil encountered"]
              (a.runAssert ctx stk msg args)) ∧
    a.NotNil ctx stk item msg args =
      (if item = GoVal.vNil then
         prependEvents [Event.logError "NotNil#nil encountered"]
           (a.runAssert ctx stk msg args)
       else Except.ok (a, [])) := by
  constructor
  · by_cases h : item = GoVal.vNil <;> simp [AssertHandler.Nil, h]
  · by_cases h : item = GoVal.vNil <;> simp [AssertHandler.NotNil, h]

/-- C5 counterexample: in the earlier handler variant, calling Nil with
a nil item on a deferred-mode handler records a deferred entry — the
failure pipeline DID run — refuting the claim that a nil item only logs
the info trace. -/
theorem c5_counterexample :
    Old.deferredAfter
        (Old.AssertHandler.Nil Old.sampleHandler freshCtx "STACK" GoVal.vNil "m" []) ≠
      [] := by
  decide

/-- C5 (amended): the earlier variant's Nil runs the failure pipeline
unconditionally — when the item is nil it does so right after the
info-level trace, and when the item is not nil it additionally emits
the error-level trace first. -/
theorem c5_old_nil_always_runs_pipeline (a : Old.AssertHandler) (ctx : Ctx)
    (stk : String) (item : GoVal) (msg : String) (args : List GoVal) :
    Old.AssertHandler.Nil a ctx stk item msg args =
      prependEvents
        (if item = GoVal.vNil then [Event.logInfo "Nil Check"]
         else [Event.logInfo "Nil Check", Event.logError "Nil#not nil encountered"])
        (Old.AssertHandler.runAssert a ctx stk msg args) := by
  by_cases h : item = GoVal.vNil
  · simp [Old.AssertHandler.Nil, h]
  · simp [Old.AssertHandler.Nil, h, prependEvents_prepend]

/-- invoke_ok evaluates the termination action for every non-raising
action. -/
theorem invoke_ok : ∀ (f : ExitFunc), f ≠ ExitFunc.panicOnFailure → ∀ (c : Nat),
    f.invoke c = Except.ok (Event.exitCall f c)
  | .osExit, _, _ => rfl
  | .noOp, _, _ => rfl
  | .custom _, _, _ => rfl
  | .panicOnFailure, h, _ => absurd rfl h

/-- invoke_cases shows a successful termination-action invocation always
yields the corresponding exitCall event. -/
theorem invoke_cases : ∀ (f : ExitFunc) (c : Nat) (ev : Event),
    f.invoke c = Except.ok ev → ev = Event.exitCall f c
  | .osExit, _, _, h => by cases h; rfl
  | .noOp, _, _, h => by cases h; rfl
  | .custom _, _, _, h => by cases h; rfl
  | .panicOnFailure, _, _, h => by cases h

/-- pda_drain computes the drain on a non-empty queue for a non-raising
termination action. -/
theorem pda_drain (a : AssertHandler) (ctx : Ctx) (hne : a.deferredErrors ≠ [])
    (hf : a.exitFunc ≠ ExitFunc.panicOnFailure) :
    a.ProcessDeferredAssertions ctx =
      Except.ok ({ a with deferredErrors := [] },
        [Event.write a.writer (String.intercalate "\n---\n" a.deferredErrors ++ "\n"),
         Event.exitCall a.exitFunc 1]) := by
  have hlen : 0 < a.deferredErrors.length := List.length_pos.mpr hne
  simp [AssertHandler.ProcessDeferredAssertions, hlen, invoke_ok a.exitFunc hf]

/-- pda_empty computes the drain on an empty queue. -/
theorem pda_empty (a : AssertHandler) (ctx : Ctx) (he : a.deferredErrors = []) :
    a.ProcessDeferredAssertions ctx = Except.ok (a, []) := by
  simp [AssertHandler.ProcessDeferredAssertions, he]

/-- pda_evs_shape classifies every effect of the drain as either a write
to the handler's sink or the termination-action invocation. -/
theorem pda_evs_shape (a : AssertHandler) (ctx : Ctx) (e : Event)
    (h : e ∈ evsOf (a.ProcessDeferredAssertions ctx)) :
    (∃ s, e = Event.write a.writer s) ∨ e = Event.exitCall a.exitFunc 1 := by
  by_cases hne : a.deferredErrors = []
  · rw [pda_empty a ctx hne] at h
    simp [evsOf] at h
  · cases hiv : a.exitFunc.invoke 1 with
    | error p =>
        unfold AssertHandler.ProcessDeferredAssertions at h
        rw [hiv] at h
        simp [List.length_pos.mpr hne, evsOf] at h
    | ok ev =>
        unfold AssertHandler.ProcessDeferredAssertions at h
        rw [hiv] at h
        simp [List.length_pos.mpr hne, evsOf] at h
        rcases h with h | h
        · exact Or.inl ⟨_, h⟩
        · exact Or.inr (h.trans (invoke_cases a.exitFunc 1 ev hiv))

/-- C2 counterexample: a concrete handler with a non-empty deferred
queue whose drain executes without a single lock-acquisition event,
refuting the claim that the drain holds the handler's lock. -/
theorem c2_counterexample :
    pdaHandler.deferredErrors ≠ [] ∧
    Event.lockAcquire ∉ evsOf (pdaHandler.ProcessDeferredAssertions freshCtx) := by
  exact ⟨by decide, by decide⟩

/-- C2 (amended): ProcessDeferredAssertions does NOT acquire the
handler's mutual-exclusion lock — its entire effect trace is free of
lock-acquire and lock-release events — whereas every run of the failure
pipeline begins by acquiring that lock; a drain can therefore interleave
with a concurrent failing evaluation on the same handler. -/
theorem c2_drain_not_under_lock (a : AssertHandler) (ctx : Ctx) :
    Event.lockAcquire ∉ evsOf (a.ProcessDeferredAssertions ctx) ∧
    Event.lockRelease ∉ evsOf (a.ProcessDeferredAssertions ctx) ∧
    (∀ (stk msg : String) (args : List GoVal) (b : AssertHandler) (evs : List Event),
      a.runAssert ctx stk msg args = Except.ok (b, evs) →
      ∃ rest, evs = Event.lockAcquire :: rest) := by
  refine ⟨?_, ?_, ?_⟩
  · intro hmem
    rcases pda_evs_shape a ctx _ hmem with ⟨s, hs⟩ | hx
    · cases hs
    · cases hx
  · intro hmem
    rcases pda_evs_shape a ctx _ hmem with ⟨s, hs⟩ | hx
    · cases hs
    · cases hx
  · intro stk msg args b evs h
    cases hctx : ctx.err with
    | some e =>
        simp [AssertHandler.runAssert, hctx] at h
        exact ⟨_, h.2.symm⟩
    | none =>
        cases hbr : a.buildRecord msg args with
        | error p => simp [AssertHandler.runAssert, hctx, hbr] at h
        | ok record =>
            cases hd : a.deferAssertions with
            | true =>
                simp [AssertHandler.runAssert, hctx, hbr, hd] at h
                exact ⟨_, h.2.symm⟩
            | false =>
                cases hiv : a.exitFunc.invoke 1 with
                | error p => simp [AssertHandler.runAssert, hctx, hbr, hd, hiv] at h
                | ok ev =>
                    simp [AssertHandler.runAssert, hctx, hbr, hd, hiv] at h
                    exact ⟨_, h.2.symm⟩

/-- C2 witness: the amended theorem applied at a concrete handler with a
non-empty queue and at a concrete failing evaluation. -/
theorem c2_drain_not_under_lock_witness :
    Event.lockAcquire ∉ evsOf (pdaHandler.ProcessDeferredAssertions freshCtx) ∧
    ∃ b evs, pdaHandler.runAssert freshCtx "" "m" [] = Except.ok (b, evs) ∧
      ∃ rest, evs = Event.lockAcquire :: rest := by
  refine ⟨(c2_drain_not_under_lock pdaHandler freshCtx).1, ⟨_, _, rfl, ?_⟩⟩
  exact (c2_drain_not_under_lock pdaHandler freshCtx).2.2 "" "m" [] _ _ rfl

/-- addPairs_ok shows the pair loop succeeds whenever every key position
holds a string. -/
theorem addPairs_ok : ∀ (args : List GoVal) (d : List (String × GoVal)),
    keysAreStrings args = true → ∃ d2, addPairs args d = Except.ok d2
  | [], d, _ => ⟨d, rfl⟩
  | [_], d, _ => ⟨d, rfl⟩
  | k :: v :: rest, d, h => by
      cases k with
      | vString s =>
          simpa [addPairs] using addPairs_ok rest (mapSet d s v)
            (by simpa [keysAreStrings, GoVal.isStringVal] using h)
      | vInt n => simp [keysAreStrings, GoVal.isStringVal] at h
      | vBool b => simp [keysAreStrings, GoVal.isStringVal] at h
      | vNil => simp [keysAreStrings, GoVal.isStringVal] at h

/-- buildRecord_ok lifts addPairs_ok through the record assembly. -/
theorem buildRecord_ok (a : AssertHandler) (msg : String) (args : List GoVal)
    (hk : keysAreStrings args = true) :
    ∃ d, a.buildRecord msg args = Except.ok d := by
  obtain ⟨d2, hd⟩ := addPairs_ok args
    (mapSet (mapSet [] "msg" (.vString msg)) "area" (.vString "Assert")) hk
  simp only [AssertHandler.buildRecord, hd]
  exact ⟨_, rfl⟩

/-- runAssert_ok shows the failure pipeline returns normally whenever
the termination action does not raise and every variadic key position
holds a string. -/
theorem runAssert_ok (a : AssertHandler) (hf : a.exitFunc ≠ ExitFunc.panicOnFailure)
    (ctx : Ctx) (stk msg : String) (args : List GoVal)
    (hk : keysAreStrings args = true) :
    ∃ r, a.runAssert ctx stk msg args = Except.ok r := by
  cases hctx : ctx.err with
  | some e =>
      simp only [AssertHandler.runAssert, hctx]
      exact ⟨_, rfl⟩
  | none =>
      obtain ⟨record, hbr⟩ := buildRecord_ok a msg args hk
      cases hd : a.deferAssertions with
      | true =>
          simp only [AssertHandler.runAssert, hctx, hbr, hd]
          exact ⟨_, rfl⟩
      | false =>
          simp only [AssertHandler.runAssert, hctx, hbr, hd,
            invoke_ok a.exitFunc hf]
          exact ⟨_, rfl⟩

/-- prependEvents_ok preserves normal returns. -/
theorem prependEvents_ok {α : Type} (evs : List Event)
    (x : Except String (α × List Event)) (h : ∃ r, x = Except.ok r) :
    ∃ r, prependEvents evs x = Except.ok r := by
  obtain ⟨⟨b, t⟩, hr⟩ := h
  simp only [hr, prependEvents]
  exact ⟨_, rfl⟩

/-- facadeRun_ok preserves normal returns of the underlying call. -/
theorem facadeRun_ok (dflt : AssertHandler) (opts : List AssertOption)
    (call : AssertHandler → Except String (AssertHandler × List Event))
    (h : ∃ r, call (applyOptions dflt opts) = Except.ok r) :
    ∃ r, facadeRun dflt opts call = Except.ok r := by
  obtain ⟨⟨b, evs⟩, hr⟩ := h
  simp only [facadeRun, hr]
  exact ⟨_, rfl⟩

/-- C3 counterexample: on the default handler — whose termination action
is the non-raising no-op — evaluating a false condition with a variadic
data list whose key position holds an integer makes the call raise the
interface-conversion panic instead of returning normally. -/
theorem c3_counterexample :
    getDefaultHandler.exitFunc ≠ ExitFunc.panicOnFailure ∧
    getDefaultHandler.Assert freshCtx "" false "boom" [GoVal.vInt 7, GoVal.vString "v"] =
      Except.error "interface conversion: interface is not string" :=
  ⟨by decide, rfl⟩

/-- C3 (amended): every evaluation call whose configured termination
action does not raise returns normally for all message arguments and
for all variadic data lists whose key positions hold strings (for
NoError, after the error pair it appends); the non-string key case is
excluded because the pair loop's interface type assertion panics on
it. -/
theorem c3_no_raise_for_string_keys (a : AssertHandler)
    (hf : a.exitFunc ≠ ExitFunc.panicOnFailure) (ctx : Ctx) (stk msg : String)
    (truth : Bool) (item errv expected actual : GoVal) (args : List GoVal)
    (hk : keysAreStrings args = true) (dflt : AssertHandler)
    (opts : List AssertOption)
    (hfo : (applyOptions dflt opts).exitFunc ≠ ExitFunc.panicOnFailure)
    (str substr : String) (b : Bool) :
    (∃ r, a.Assert ctx stk truth msg args = Except.ok r) ∧
    (∃ r, a.Nil ctx stk item msg args = Except.ok r) ∧
    (∃ r, a.NotNil ctx stk item msg args = Except.ok r) ∧
    (∃ r, a.Never ctx stk msg args = Except.ok r) ∧
    (keysAreStrings (args ++ [GoVal.vString "error", errv]) = true →
      ∃ r, a.NoError ctx stk errv msg args = Except.ok r) ∧
    (∃ r, Facade.NotEmpty dflt opts ctx stk str msg = Except.ok r) ∧
    (∃ r, Facade.Equal dflt opts ctx stk expected actual msg = Except.ok r) ∧
    (∃ r, Facade.NotEqual dflt opts ctx stk expected actual msg = Except.ok r) ∧
    (∃ r, Facade.Contains dflt opts ctx stk str substr msg = Except.ok r) ∧
    (∃ r, Facade.NotContains dflt opts ctx stk str substr msg = Except.ok r) ∧
    (∃ r, Facade.TrueCond dflt opts ctx stk b msg = Except.ok r) ∧
    (∃ r, Facade.FalseCond dflt opts ctx stk b msg = Except.ok r) := by
  have hrun : ∀ (m : String) (ar : List GoVal), keysAreStrings ar = true →
      ∃ r, a.runAssert ctx stk m ar = Except.ok r :=
    fun m ar hk2 => runAssert_ok a hf ctx stk m ar hk2
  have hfac : ∀ (m : String) (ar : List GoVal), keysAreStrings ar = true →
      ∃ r, facadeRun dflt opts
        (fun h => h.Assert ctx stk false m ar) = Except.ok r := by
    intro m ar hk2
    apply facadeRun_ok
    simp only [AssertHandler.Assert, Bool.false_eq_true, if_false]
    exact runAssert_ok (applyOptions dflt opts) hfo ctx stk m ar hk2
  refine ⟨?_, ?_, ?_, ?_, ?_, ?_, ?_, ?_, ?_, ?_, ?_, ?_⟩
  · cases truth with
    | true => exact ⟨_, rfl⟩
    | false =>
        obtain ⟨r, hr⟩ := hrun msg args hk
        simp only [AssertHandler.Assert, Bool.false_eq_true, if_false, hr]
        exact ⟨_, rfl⟩
  · by_cases hi : item = GoVal.vNil
    · simp only [AssertHandler.Nil, hi]
      exact ⟨_, rfl⟩
    · obtain ⟨r, hr⟩ := prependEvents_ok [Event.logError "Nil#not nil encountered"] _
        (hrun msg args hk)
      simp only [AssertHandler.Nil, if_pos hi, hr]
      exact ⟨_, rfl⟩
  · by_cases hi : item = GoVal.vNil
    · obtain ⟨r, hr⟩ := prependEvents_ok [Event.logError "NotNil#nil encountered"] _
        (hrun msg args hk)
      simp only [AssertHandler.NotNil, if_pos hi, hr]
      exact ⟨_, rfl⟩
    · simp only [AssertHandler.NotNil, if_neg hi]
      exact ⟨_, rfl⟩
  · exact hrun msg args hk
  · intro hk2
    by_cases he : errv = GoVal.vNil
    · simp only [AssertHandler.NoError, he]
      exact ⟨_, rfl⟩
    · obtain ⟨r, hr⟩ := hrun msg (args ++ [.vString "error", errv]) hk2
      have hne : errv ≠ GoVal.vNil := he
      simp only [AssertHandler.NoError, if_pos hne, hr]
      exact ⟨_, rfl⟩
  · by_cases hs : str = ""
    · obtain ⟨r, hr⟩ := hfac msg [.vString "value", .vString str] rfl
      simp only [Facade.NotEmpty, if_pos hs, hr]
      exact ⟨_, rfl⟩
    · simp only [Facade.NotEmpty, if_neg hs]
      exact ⟨_, rfl⟩
  · by_cases he : expected = actual
    · simp only [Facade.Equal, if_pos he]
      exact ⟨_, rfl⟩
    · obtain ⟨r, hr⟩ :=
        hfac msg [.vString "expected", expected, .vString "actual", actual] rfl
      simp only [Facade.Equal, if_neg he, hr]
      exact ⟨_, rfl⟩
  · by_cases he : expected = actual
    · obtain ⟨r, hr⟩ :=
        hfac msg [.vString "expected_not", expected, .vString "actual", actual] rfl
      have hne : ¬ expected ≠ actual := fun hx => hx he
      simp only [Facade.NotEqual, if_neg hne, hr]
      exact ⟨_, rfl⟩
    · simp only [Facade.NotEqual, if_pos he]
      exact ⟨_, rfl⟩
  · by_cases hc : Facade.goStringContains str substr = true
    · simp only [Facade.Contains, hc, if_true]
      exact ⟨_, rfl⟩
    · obtain ⟨r, hr⟩ :=
        hfac msg [.vString "string", .vString str, .vString "substring", .vString substr] rfl
      simp only [Facade.Contains, hc, Bool.false_eq_true, if_false, hr]
      exact ⟨_, rfl⟩
  · by_cases hc : Facade.goStringContains str substr = true
    · obtain ⟨r, hr⟩ :=
        hfac msg [.vString "string", .vString str, .vString "substring", .vString substr] rfl
      have hnn : ¬ (¬ Facade.goStringContains str substr = true) := fun hx => hx hc
      simp only [Facade.NotContains, if_neg hnn, hr]
      exact ⟨_, rfl⟩
    · simp only [Facade.NotContains, if_pos hc]
      exact ⟨_, rfl⟩
  · cases b with
    | true => exact ⟨_, rfl⟩
    | false =>
        obtain ⟨r, hr⟩ := hfac msg [.vString "value", .vBool false] rfl
        simp only [Facade.TrueCond, Bool.false_eq_true, if_false, hr]
        exact ⟨_, rfl⟩
  · cases b with
    | true =>
        obtain ⟨r, hr⟩ := hfac msg [.vString "value", .vBool true] rfl
        simp only [Facade.FalseCond, if_neg (by decide : ¬ (¬ true = true)), hr]
        exact ⟨_, rfl⟩
    | false => exact ⟨_, rfl⟩

/-- C3 witness: the amended theorem applied at the default handler with
an empty data list. -/
theorem c3_no_raise_for_string_keys_witness :
    getDefaultHandler.exitFunc ≠ ExitFunc.panicOnFailure ∧
    keysAreStrings [] = true ∧
    (∃ r, getDefaultHandler.Assert freshCtx "" false "m" [] = Except.ok r) :=
  ⟨by decide, rfl,
    (c3_no_raise_for_string_keys getDefaultHandler (by decide) freshCtx "" "m" false
      GoVal.vNil GoVal.vNil GoVal.vNil GoVal.vNil [] rfl getDefaultHandler []
      (by decide) "" "" true).1⟩

/-- C6: on a handler in defer mode, every failing evaluation that
reaches the pipeline with a live context appends exactly its formatted
report to the end of the deferred queue (so queue order is call order)
and invokes no termination action; ProcessDeferredAssertions on a
non-empty queue writes exactly one combined report — every queued entry
joined by the fixed separator — empties the queue and invokes the
termination action with status code 1; on an empty queue it writes
nothing and invokes nothing. -/
theorem c6_deferred_accumulation_and_drain (a : AssertHandler) (ctx : Ctx)
    (stk msg : String) (args : List GoVal) (hdefer : a.deferAssertions = true)
    (hctx : ctx.err = none) (hk : keysAreStrings args = true) :
    (∃ fmt evs, a.runAssert ctx stk msg args =
        Except.ok ({ a with deferredErrors := a.deferredErrors ++ [fmt] }, evs) ∧
        ∀ f c, Event.exitCall f c ∉ evs) ∧
    (a.deferredErrors ≠ [] → a.exitFunc ≠ ExitFunc.panicOnFailure →
      a.ProcessDeferredAssertions ctx =
        Except.ok ({ a with deferredErrors := [] },
          [Event.write a.writer (String.intercalate "\n---\n" a.deferredErrors ++ "\n"),
           Event.exitCall a.exitFunc 1])) ∧
    (a.deferredErrors = [] → a.ProcessDeferredAssertions ctx = Except.ok (a, [])) := by
  refine ⟨?_, fun hne hf => pda_drain a ctx hne hf, fun he => pda_empty a ctx he⟩
  obtain ⟨record, hbr⟩ := buildRecord_ok a msg args hk
  refine ⟨a.formatter.Format record (if a.debugMode || a.verboseMode then stk else ""),
      Event.lockAcquire :: (a.flushes.map Event.flushHook ++
        ((if a.verboseMode then
            [Event.write a.writer ("ARGS: " ++ goReprArgs args ++ "\n")] else []) ++
         [Event.write a.writer "ASSERT\n",
          Event.write a.writer
            (a.formatter.Format record
              (if a.debugMode || a.verboseMode then stk else "") ++ "\n"),
          Event.lockRelease])), ?_, ?_⟩
  · simp only [AssertHandler.runAssert, hctx, hbr, hdefer]
    simp [List.cons_append, List.append_assoc]
  · intro f c hmem
    cases hv : a.verboseMode <;> simp [hv] at hmem

/-- C6 witness: the theorem applied at a concrete deferred-mode handler
whose queue already holds an entry. -/
theorem c6_deferred_accumulation_and_drain_witness :
    deferHandler.deferAssertions = true ∧ freshCtx.err = none ∧
    keysAreStrings [] = true ∧
    (∃ fmt evs, deferHandler.runAssert freshCtx "" "B" [] =
        Except.ok ({ deferHandler with
          deferredErrors := deferHandler.deferredErrors ++ [fmt] }, evs) ∧
        ∀ f c, Event.exitCall f c ∉ evs) :=
  ⟨rfl, rfl, rfl,
    (c6_deferred_accumulation_and_drain deferHandler freshCtx "" "B" [] rfl rfl rfl).1⟩

/-- C7: with the default façade configuration (no modifiers), every
evaluation of a false condition against a live context writes the
ASSERT block — containing the literal failure message — to standard
error, invokes only the no-op termination action of the
process-wide default handler (never the process-termination primitive),
and returns with the default handler unchanged: the process
continues. -/
theorem c7_default_facade_failure_output (ctx : Ctx) (stk msg : String)
    (hctx : ctx.err = none) :
    getDefaultHandler.exitFunc = ExitFunc.noOp ∧
    getDefaultHandler.writer = Writer.stderr ∧
    ∃ pre post,
      Facade.Assert getDefaultHandler [] ctx stk false msg =
        Except.ok (getDefaultHandler,
          [Event.lockAcquire, Event.write Writer.stderr "ASSERT\n",
           Event.write Writer.stderr (pre ++ (msg ++ post)),
           Event.exitCall ExitFunc.noOp 1, Event.lockRelease]) := by
  refine ⟨rfl, rfl, "ASSERT\n" ++ "   " ++ "msg" ++ "=",
    "\n" ++ ("   " ++ "area" ++ "=" ++ "Assert" ++ "\n") ++ "\n", ?_⟩
  simp [Facade.Assert, facadeRun, applyOptions, AssertHandler.Assert,
    AssertHandler.runAssert, hctx, AssertHandler.buildRecord, addPairs, mapSet,
    getDefaultHandler, NewAssertHandler, Formatter.Format, TextFormatter.Format,
    GoVal.toDisplay, String.join, ExitFunc.invoke, String.append_assoc]
  rw [← String.append_assoc, ← String.append_assoc, ← String.append_assoc]
  rfl

/-- C7 witness: the theorem applied at a live context and the message
boom. -/
theorem c7_default_facade_failure_output_witness :
    freshCtx.err = none ∧
    (getDefaultHandler.exitFunc = ExitFunc.noOp ∧
     getDefaultHandler.writer = Writer.stderr ∧
     ∃ pre post,
       Facade.Assert getDefaultHandler [] freshCtx "" false "boom" =
         Except.ok (getDefaultHandler,
           [Event.lockAcquire, Event.write Writer.stderr "ASSERT\n",
            Event.write Writer.stderr (pre ++ ("boom" ++ post)),
            Event.exitCall ExitFunc.noOp 1, Event.lockRelease])) :=
  ⟨rfl, c7_default_facade_failure_output freshCtx "" "boom" rfl⟩

/-- C8: every façade call that supplies at least one modifier builds a
transient handler that starts with an empty deferred queue while
sharing the default handler's flush-hook list and contextual-data
registry; a failing deferred evaluation through such a call leaves the
default handler untouched, and a later façade-level
ProcessDeferredAssertions through modifiers drains an empty transient
queue — no write, no termination. -/
theorem c8_transient_handler_isolation (dflt : AssertHandler)
    (opts : List AssertOption) (hopts : opts ≠ []) (ctx : Ctx) (stk msg : String) :
    (applyOptions dflt opts).deferredErrors = [] ∧
    (applyOptions dflt opts).flushes = dflt.flushes ∧
    (applyOptions dflt opts).assertData = dflt.assertData ∧
    (∀ b evs, Facade.Assert dflt opts ctx stk false msg = Except.ok (b, evs) →
      b = dflt) ∧
    (∀ (opts2 : List AssertOption), opts2 ≠ [] →
      Facade.ProcessDeferredAssertions dflt opts2 ctx = Except.ok (dflt, [])) := by
  have hne : opts.isEmpty = false := by
    cases opts with
    | nil => exact absurd rfl hopts
    | cons x xs => rfl
  refine ⟨by simp [applyOptions, hne], by simp [applyOptions, hne],
    by simp [applyOptions, hne], ?_, ?_⟩
  · intro b evs h
    simp only [Facade.Assert, facadeRun] at h
    cases hcall : (applyOptions dflt opts).Assert ctx stk false msg [] with
    | error p => rw [hcall] at h; cases h
    | ok r =>
        rw [hcall] at h
        cases r with
        | mk b0 evs0 =>
            simp [hne] at h
            exact h.1.symm
  · intro opts2 h2
    have hne2 : opts2.isEmpty = false := by
      cases opts2 with
      | nil => exact absurd rfl h2
      | cons x xs => rfl
    have hq : (applyOptions dflt opts2).deferredErrors = [] := by
      simp [applyOptions, hne2]
    simp only [Facade.ProcessDeferredAssertions, facadeRun]
    rw [pda_empty _ ctx hq]
    simp [hne2]

/-- C8 witness: the theorem applied with the defer-mode modifier. -/
theorem c8_transient_handler_isolation_witness :
    ([WithDeferMode true] : List AssertOption) ≠ [] ∧
    (applyOptions getDefaultHandler [WithDeferMode true]).deferredErrors = [] ∧
    (∀ b evs,
      Facade.Assert getDefaultHandler [WithDeferMode true] freshCtx "" false "m" =
        Except.ok (b, evs) → b = getDefaultHandler) :=
  ⟨List.cons_ne_nil _ _,
   (c8_transient_handler_isolation getDefaultHandler [WithDeferMode true]
     (List.cons_ne_nil _ _) freshCtx "" "m").1,
   (c8_transient_handler_isolation getDefaultHandler [WithDeferMode true]
     (List.cons_ne_nil _ _) freshCtx "" "m").2.2.2.1⟩

/-- any_insertField shows insertion preserves the any predicate. -/
theorem any_insertField {α : Type} (p : String × α → Bool) (kv : String × α) :
    ∀ (l : List (String × α)), (insertField kv l).any p = (p kv || l.any p)
  | [] => by simp [insertField]
  | x :: xs => by
      by_cases h : strLt kv.1 x.1 = true
      · simp [insertField, h, List.any_cons]
      · simp [insertField, h, List.any_cons, any_insertField p kv xs,
          Bool.or_left_comm]

/-- any_sortFields shows key sorting preserves the any predicate. -/
theorem any_sortFields {α : Type} (p : String × α → Bool) :
    ∀ (l : List (String × α)), (sortFields l).any p = l.any p
  | [] => rfl
  | x :: xs => by
      have h1 : sortFields (x :: xs) = insertField x (sortFields xs) := rfl
      rw [h1, any_insertField, any_sortFields p xs, List.any_cons]

/-- C9: parsing the JSON formatter's serialized output for the record
holding msg X and area Assert with empty stack yields an object whose
assertData.msg field is the string X; and the value the formatter
marshals carries the stack key exactly when the stack text is
non-empty. -/
theorem c9_json_formatter_round_trip :
    ((parseJson (JSONFormatter.Format
          [("msg", GoVal.vString "X"), ("area", GoVal.vString "Assert")] "")).bind
        (fun j => (j.getField "assertData").bind (fun d => d.getField "msg")) =
      some (Json.str "X")) ∧
    (∀ (d : List (String × GoVal)) (stack : String),
      ((JSONFormatter.marshalVal d stack).hasKey "stack" = true ↔ stack ≠ "")) := by
  constructor
  · rfl
  · intro d stack
    by_cases hs : stack = ""
    · simp [JSONFormatter.marshalVal, Json.hasKey, hs, any_sortFields]
    · simp [JSONFormatter.marshalVal, Json.hasKey, hs, any_sortFields]

/-- C10: ProcessDeferredAssertions never consults its context argument —
for every handler its result is identical under any two contexts — and
in particular an already-cancelled context does not suppress the
combined write, the queue clearing, or the termination action: the
cancellation short-circuit belongs to the failure pipeline only. -/
theorem c10_pda_ignores_context (a : AssertHandler) (ctx1 ctx2 : Ctx) :
    a.ProcessDeferredAssertions ctx1 = a.ProcessDeferredAssertions ctx2 ∧
    (ctx1.err ≠ none → a.deferredErrors ≠ [] →
      a.exitFunc ≠ ExitFunc.panicOnFailure →
      a.ProcessDeferredAssertions ctx1 =
        Except.ok ({ a with deferredErrors := [] },
          [Event.write a.writer
            (String.intercalate "\n---\n" a.deferredErrors ++ "\n"),
           Event.exitCall a.exitFunc 1])) :=
  ⟨rfl, fun _ hne hf => pda_drain a ctx1 hne hf⟩

/-- C10 witness: the theorem applied at a concrete handler with a
non-empty queue and an already-cancelled context. -/
theorem c10_pda_ignores_context_witness :
    cancelledCtx.err ≠ none ∧ pdaHandler.deferredErrors ≠ [] ∧
    pdaHandler.exitFunc ≠ ExitFunc.panicOnFailure ∧
    pdaHandler.ProcessDeferredAssertions cancelledCtx =
      pdaHandler.ProcessDeferredAssertions freshCtx ∧
    pdaHandler.ProcessDeferredAssertions cancelledCtx =
      Except.ok ({ pdaHandler with deferredErrors := [] },
        [Event.write pdaHandler.writer
          (String.intercalate "\n---\n" pdaHandler.deferredErrors ++ "\n"),
         Event.exitCall pdaHandler.exitFunc 1]) :=
  ⟨by decide, by decide, by decide,
   (c10_pda_ignores_context pdaHandler cancelledCtx freshCtx).1,
   (c10_pda_ignores_context pdaHandler cancelledCtx freshCtx).2
     (by decide) (by decide) (by decide)⟩

end AssertLib
